import Mathlib

/-!
Verification model of `cmd/chantools/genimportscript.go` from the chantools
repository: the `genImportScriptCommand.Execute` run (key enumeration and
script rendering), the three `print*` rendering functions, and the
`seedBirthdayToBlock` birthday-to-height estimator.

Conventions of the embedding:
* Timestamps are integer Unix seconds (`Int`).  `time.Time.Sub` yields a
  `time.Duration` (an `int64` of nanoseconds) and saturates at the extreme
  values; at second granularity that is a clamp to ±9223372036 seconds.
* Go's conversion of the `float64` quotient to `uint32` truncates towards
  zero; for values outside `uint32` range the Go specification leaves the
  result implementation-dependent, and this model follows the mainstream
  gc/amd64 behaviour (conversion through `int64`, then the low 32 bits,
  i.e. reduction modulo 2^32).  In-range values are unaffected.  Over the
  whole reachable range (|duration| ≤ 2^63-1 ns) the `float64` arithmetic
  of `Duration.Seconds()/600` is exact enough that truncation agrees with
  exact integer T-division by 600, which is what the model computes.
* The btcsuite key/encoding library (`hdkeychain`, `btcutil`) is external
  to the repository; it is modelled by the fields the program observes:
  whether a key carries private material, and the key's identity, which by
  the determinism of hierarchical derivation is a pure function of the
  derivation path from the root.  Encodings (WIF, hex public key,
  addresses) are modelled as opaque injective strings; no claim inspects
  their internal format.
* Output is modelled as the list of emitted lines; `fmt.Printf`/`Println`
  emit one line each here.  Errors returned by `Execute` and Go panics are
  kept apart (`Outcome.err` vs `Outcome.panicked`): a returned error flows
  to the caller, an unrecovered panic aborts the process.
-/

namespace Chantools

/-- Model of a btcsuite `hdkeychain.ExtendedKey` as observed by this
program: `isPrivate` tells whether private material is present (the
library's `IsPrivate`); `path` is the derivation path from the root key,
which determines the key material (hierarchical derivation is
deterministic, spec §4.2). -/
structure ExtendedKey where
  isPrivate : Bool
  path : List Nat
deriving DecidableEq, Repr

/-- Model of `hdkeychain.ExtendedKey.ECPrivKey`: succeeds exactly when the
key holds private material; the error text is the library's
`ErrNotPrivExtKey`. -/
def ECPrivKey (k : ExtendedKey) : Except String ExtendedKey :=
  if k.isPrivate then .ok k
  else .error "unable to create private keys from a public extended key"

/-- Model of `hdkeychain.ExtendedKey.ECPubKey`: the compressed public key
is derivable from either private or public-only material (spec §4.3), so
this always succeeds. -/
def ECPubKey (k : ExtendedKey) : Except String ExtendedKey := .ok k

/-- Opaque model of `btcutil.NewWIF(...).String()`: the WIF encoding of the
private key, injective in the key.  `NewWIF` itself cannot fail for the
fixed, valid network parameters of a run, so it is modelled as total. -/
def wifString (k : ExtendedKey) : String := "wif" ++ toString k.path

/-- Opaque model of `pubKey.SerializeCompressed()` rendered with `%x`. -/
def pubKeyHex (k : ExtendedKey) : String := "pub" ++ toString k.path

/-- Opaque model of the pay-to-public-key-hash address string. -/
def addrP2PKHStr (k : ExtendedKey) : String := "p2pkh" ++ toString k.path

/-- Opaque model of the script-hash-wrapped witness address string. -/
def addrNP2WKHStr (k : ExtendedKey) : String := "np2wkh" ++ toString k.path

/-- Opaque model of the pay-to-witness-public-key-hash address string. -/
def addrP2WKHStr (k : ExtendedKey) : String := "p2wkh" ++ toString k.path

/-- First hardened child index, `hdkeychain.HardenedKeyStart` = 2^31. -/
def hardenedKeyStart : Nat := 2147483648

/-- Modelled from the spec: `lnd.DeriveChildren` belongs to this repository
but is not under src/.  Spec §4.2: one hierarchical child-derivation step
per path element, in order, threading each step's output into the next; a
hardened step (element ≥ 2^31) requires private material and fails on a
public-only key; a non-hardened step works from either; privacy of the
material is preserved along the derivation. -/
def DeriveChildren (k : ExtendedKey) : List Nat → Except String ExtendedKey
  | [] => .ok k
  | e :: rest =>
      if hardenedKeyStart ≤ e ∧ k.isPrivate = false then
        .error "need private material to derive hardened keys"
      else
        DeriveChildren ⟨k.isPrivate, k.path ++ [e]⟩ rest

/-- The derived key that a successful `DeriveChildren` run produces. -/
def deriveKey (k : ExtendedKey) (p : List Nat) : ExtendedKey :=
  ⟨k.isPrivate, k.path ++ p⟩

/-- The apostrophe character marking a hardened path segment. -/
def hardenedMarker : Char := Char.ofNat 39

/-- Splits a character list on the path separator. -/
def splitSlash : List Char → List (List Char)
  | [] => [[]]
  | c :: rest =>
      let r := splitSlash rest
      if c = '/' then [] :: r
      else
        match r with
        | [] => [[c]]
        | seg :: segs => (c :: seg) :: segs

/-- Value of a decimal digit character, if it is one. -/
def digitVal (c : Char) : Option Nat :=
  if '0' ≤ c ∧ c ≤ '9' then some (c.toNat - 48) else none

/-- Accumulating decimal reader over a character list. -/
def readDecimalAux (acc : Nat) : List Char → Option Nat
  | [] => some acc
  | c :: cs =>
      match digitVal c with
      | none => none
      | some d => readDecimalAux (10 * acc + d) cs

/-- Reads a non-empty all-digit character list as a decimal number. -/
def readDecimal : List Char → Option Nat
  | [] => none
  | c :: cs => readDecimalAux 0 (c :: cs)

/-- Modelled from the spec: segment parsing of `lnd.ParsePath` (not under
src/).  Spec §4.1: each `/`-separated segment is a decimal integer
optionally suffixed with an apostrophe marking "hardened"; fails on a
non-numeric or empty segment or a value ≥ 2^31; a hardened index is
encoded by adding 2^31. -/
def parseSegments : List (List Char) → Except String (List Nat)
  | [] => .ok []
  | s :: rest =>
      let hardened := s.getLast? = some hardenedMarker
      let core := if hardened then s.dropLast else s
      match readDecimal core with
      | none => .error "could not parse path segment"
      | some n =>
          if hardenedKeyStart ≤ n then
            .error "path segment out of range"
          else
            match parseSegments rest with
            | .error e => .error e
            | .ok ns => .ok ((if hardened then n + hardenedKeyStart else n) :: ns)

/-- Modelled from the spec: `lnd.ParsePath` belongs to this repository but
is not under src/.  Spec §4.1: a leading literal `m`, then zero or more
`/`-separated segments as in `parseSegments`; fails on a missing leading
`m`. -/
def ParsePath (path : String) : Except String (List Nat) :=
  match splitSlash path.data with
  | [] => .error "path cannot be empty"
  | m :: rest =>
      if m = ['m'] then parseSegments rest
      else .error "path must start with m"

/-- `defaultRecoveryWindow` from the source. -/
def defaultRecoveryWindow : Nat := 2500

/-- `defaultRescanFrom` from the source. -/
def defaultRescanFrom : Nat := 500000

/-- `defaultDerivationPath` from the source: the string `m/84'/0'/0'`
(the apostrophes are built from `hardenedMarker`). -/
def defaultDerivationPath : String :=
  "m/84" ++ String.singleton hardenedMarker ++ "/0" ++
    String.singleton hardenedMarker ++ "/0" ++ String.singleton hardenedMarker

/-- The flag set of `genImportScriptCommand`; `RecoveryWindow` and
`RescanFrom` are Go `uint32` values, carried as `Nat`. -/
structure genImportScriptCommand where
  RootKey : String
  Format : String
  DerivationPath : String
  RecoveryWindow : Nat
  RescanFrom : Nat
deriving DecidableEq, Repr

/-- Outcome of `seedBirthdayToBlock`: the Go function either returns a
`uint32` height or panics (its `default:` branch); an unrecovered panic
terminates the process, unlike a returned error. -/
inductive EstimateOutcome where
  | height (h : Nat)
  | panicked (msg : String)
deriving DecidableEq, Repr

/-- Genesis timestamp of `chaincfg.MainNetParams.GenesisBlock.Header`:
2009-01-03 18:15:05 UTC. -/
def mainnetGenesis : Int := 1231006505

/-- Genesis timestamp of `chaincfg.TestNet3Params.GenesisBlock.Header`:
2011-02-02 23:16:42 UTC. -/
def testnet3Genesis : Int := 1296688602

/-- `time.Time.Sub` saturates at the `time.Duration` extremes (±(2^63-1)
nanoseconds); at second granularity this clamps to ±9223372036 s.  (The
discarded fractional 0.85 s cannot move the later division by 600 across
an integer boundary, since the clamp value is 436 past a multiple of
600.) -/
def durationClampSec (d : Int) : Int :=
  max (-9223372036) (min 9223372036 d)

/-- Go's `uint32(f)` for the truncated-towards-zero `float64` quotient:
in-range values are taken as-is; for out-of-range (negative) values the Go
spec leaves the result implementation-dependent and this model follows
gc/amd64 (conversion through `int64`, then the low 32 bits, i.e. the value
modulo 2^32).  Over the reachable range the quotient fits in `int64`, so
the `int64` step is exact. -/
def uint32OfInt (q : Int) : Nat := (q % 4294967296).toNat

/-- The arithmetic of `seedBirthdayToBlock`'s final line for a network with
genesis timestamp `g`: `uint32(birthday.Sub(genesis).Seconds() / 600)`.
The `float64` division of a whole number of (clamped) seconds by 600
followed by conversion truncates towards zero, which is exact integer
T-division by 600 (`float64` is exact for these magnitudes). -/
def estimateFromGenesis (g t : Int) : Nat :=
  uint32OfInt (Int.tdiv (durationClampSec (t - g)) 600)

/-- `seedBirthdayToBlock` from the source, with the globally selected
`chainParams.Name` passed explicitly: mainnet and testnet3 estimate from
their genesis timestamps; regtest and simnet return 0; any other network
name panics with `unimplemented network <name>`. -/
def seedBirthdayToBlock (netName : String) (birthdayTimestamp : Int) :
    EstimateOutcome :=
  if netName = "mainnet" then
    .height (estimateFromGenesis mainnetGenesis birthdayTimestamp)
  else if netName = "testnet3" then
    .height (estimateFromGenesis testnet3Genesis birthdayTimestamp)
  else if netName = "regtest" ∨ netName = "simnet" then
    .height 0
  else
    .panicked ("unimplemented network " ++ netName)

/-- The spec's own words for the estimator (§4.4): `height = floor((birthday
− genesisTimestamp) in seconds / 600)` — stated as a mathematical floor
over the integers, for comparison with the code's `seedBirthdayToBlock`. -/
def specFloorHeight (g t : Int) : Int := Int.fdiv (t - g) 600

/-- The line printed by `printBitcoinCli` on success. -/
def cliLine (k : ExtendedKey) (path : String) (branch index : Nat) : String :=
  "bitcoin-cli importprivkey " ++ wifString k ++ " \"" ++ path ++ "/" ++
    toString branch ++ "/" ++ toString index ++ "/\" false"

/-- The line printed by `printBitcoinCliWatchOnly` on success. -/
def watchOnlyLine (k : ExtendedKey) (path : String) (branch index : Nat) :
    String :=
  "bitcoin-cli importpubkey " ++ pubKeyHex k ++ " \"" ++ path ++ "/" ++
    toString branch ++ "/" ++ toString index ++ "/\" false"

/-- The line printed by `printBitcoinImportWallet` on success. -/
def importWalletLine (k : ExtendedKey) (path : String) (branch index : Nat) :
    String :=
  wifString k ++ " 1970-01-01T00:00:01Z label=" ++ path ++ "/" ++
    toString branch ++ "/" ++ toString index ++ "/ # addr=" ++
    addrP2PKHStr k ++ "," ++ addrNP2WKHStr k ++ "," ++ addrP2WKHStr k

/-- `printBitcoinCli` from the source: derives the private key (fails on a
public-only key), encodes it as WIF and emits one `importprivkey` line. -/
def printBitcoinCli (hdKey : ExtendedKey) (path : String)
    (branch index : Nat) : Except String String :=
  match ECPrivKey hdKey with
  | .error e => .error ("could not derive private key: " ++ e)
  | .ok _ => .ok (cliLine hdKey path branch index)

/-- `printBitcoinCliWatchOnly` from the source: derives the public key
(always available) and emits one `importpubkey` line. -/
def printBitcoinCliWatchOnly (hdKey : ExtendedKey) (path : String)
    (branch index : Nat) : Except String String :=
  match ECPubKey hdKey with
  | .error e => .error ("could not derive private key: " ++ e)
  | .ok _ => .ok (watchOnlyLine hdKey path branch index)

/-- `printBitcoinImportWallet` from the source: derives the private key
(fails on a public-only key), the public key and the three addresses, and
emits one wallet-dump line. -/
def printBitcoinImportWallet (hdKey : ExtendedKey) (path : String)
    (branch index : Nat) : Except String String :=
  match ECPrivKey hdKey with
  | .error e => .error ("could not derive private key: " ++ e)
  | .ok _ => .ok (importWalletLine hdKey path branch index)

/-- The `switch c.Format` of `Execute`, print-function leg: the `default:`
case falls through to `"bitcoin-cli"`, so everything that is not one of the
two other recognized selectors gets `printBitcoinCli`. -/
def selectPrintFn (format : String) :
    ExtendedKey → String → Nat → Nat → Except String String :=
  if format = "bitcoin-cli-watchonly" then printBitcoinCliWatchOnly
  else if format = "bitcoin-importwallet" then printBitcoinImportWallet
  else printBitcoinCli

/-- The success-line function corresponding to `selectPrintFn`. -/
def selectLine (format : String) :
    ExtendedKey → String → Nat → Nat → String :=
  if format = "bitcoin-cli-watchonly" then watchOnlyLine
  else if format = "bitcoin-importwallet" then importWalletLine
  else cliLine

/-- The `switch c.Format` of `Execute`, comment leg: `"bitcoin-importwallet"`
prints its own instruction comment, everything else (including the
`default:` fallthrough) prints the paste instruction. -/
def selectComment (format : String) : String :=
  if format = "bitcoin-importwallet" then
    "# Save this output to a file and use the importwallet command of bitcoin core."
  else
    "# Paste the following lines into a command line window."

/-- `if c.RecoveryWindow == 0 { c.RecoveryWindow = defaultRecoveryWindow }`. -/
def defaultWindow (w : Nat) : Nat :=
  if w = 0 then defaultRecoveryWindow else w

/-- `if c.RescanFrom == 0 { c.RescanFrom = defaultRescanFrom }`. -/
def defaultRescan (r : Nat) : Nat :=
  if r = 0 then defaultRescanFrom else r

/-- `if c.DerivationPath == "" { c.DerivationPath = defaultDerivationPath }`. -/
def defaultPath (p : String) : String :=
  if p = "" then defaultDerivationPath else p

/-- The "Set default values" block of `Execute`: three independent per-field
checks on the configuration, each replacing only its own unset/zero field. -/
def applyDefaults (c : genImportScriptCommand) : genImportScriptCommand :=
  { c with
    RecoveryWindow := defaultWindow c.RecoveryWindow
    RescanFrom := defaultRescan c.RescanFrom
    DerivationPath := defaultPath c.DerivationPath }

/-- Result of the root-key `switch` at the top of `Execute`. -/
inductive RootRes where
  | failed (msg : String)
  | panicked (msg : String)
  | ok (key : ExtendedKey) (rescanFrom : Nat)
deriving DecidableEq, Repr

/-- The root-key `switch` of `Execute`: a non-empty `RootKey` flag is parsed
as an extended key (`hdkeychain.NewKeyFromString`, passed in as
`parseRoot`), keeping the supplied `RescanFrom`; otherwise the key and the
wallet birthday come from the console (`rootKeyFromConsole`, passed in as
`console`) and `RescanFrom` is overwritten with the birthday estimate of
(birthday − 48 h); a panic of the estimator propagates. -/
def resolveRootAndRescan (rootKey : String) (rescanFrom : Nat)
    (netName : String) (parseRoot : String → Except String ExtendedKey)
    (console : Except String (ExtendedKey × Int)) : RootRes :=
  if rootKey ≠ "" then
    match parseRoot rootKey with
    | .error e => .failed ("error reading root key: " ++ e)
    | .ok k => .ok k rescanFrom
  else
    match console with
    | .error e => .failed ("error reading root key: " ++ e)
    | .ok (k, birthday) =>
        match seedBirthdayToBlock netName (birthday - 172800) with
        | .panicked m => .panicked m
        | .height h => .ok k h

/-- One branch loop of `Execute`: for each index, derive
`<parsed>/<branch>/<index>` and render one line; the first failing step
aborts, returning the lines already emitted together with the error. -/
def runKeys (printFn : ExtendedKey → String → Nat → Nat → Except String String)
    (root : ExtendedKey) (parsed : List Nat) (dp : String) (branch : Nat) :
    List Nat → List String × Option String
  | [] => ([], none)
  | i :: rest =>
      match DeriveChildren root (parsed ++ [branch, i]) with
      | .error e => ([], some e)
      | .ok derivedKey =>
          match printFn derivedKey dp branch i with
          | .error e => ([], some e)
          | .ok line =>
              let r := runKeys printFn root parsed dp branch rest
              (line :: r.1, r.2)

/-- Overall outcome of an `Execute` run: normal completion, a returned
error, or a propagated (process-terminating) panic. -/
inductive Outcome where
  | ok
  | err (msg : String)
  | panicked (msg : String)
deriving DecidableEq, Repr

/-- An `Execute` run: the lines emitted to standard output (they stand even
when a later step fails) and the outcome. -/
structure ExecResult where
  lines : List String
  outcome : Outcome
deriving DecidableEq, Repr

/-- The header line `# Wallet dump created by chantools on <now>`. -/
def headerLine (now : String) : String :=
  "# Wallet dump created by chantools on " ++ now

/-- The final `bitcoin-cli rescanblockchain <height>` line. -/
def rescanLine (h : Nat) : String :=
  "bitcoin-cli rescanblockchain " ++ toString h

/-- `genImportScriptCommand.Execute` from the source.  The excluded
collaborators are passed in: the globally selected network name
(`setupChainParams`/`chainParams.Name`), the root-key string parser
(`hdkeychain.NewKeyFromString`), the console interaction
(`rootKeyFromConsole`, yielding a key and a birthday), and the current
time rendered for the header.  Control flow follows the source: resolve
the root key (possibly overwriting `RescanFrom`), set defaults, parse the
derivation path, print the header and the format comment, run branch 0
then branch 1 with ascending indices (aborting on the first failure), and
finally print the rescan directive. -/
def Execute (c : genImportScriptCommand) (netName : String)
    (parseRoot : String → Except String ExtendedKey)
    (console : Except String (ExtendedKey × Int)) (now : String) :
    ExecResult :=
  match resolveRootAndRescan c.RootKey c.RescanFrom netName parseRoot console with
  | .failed e => ⟨[], .err e⟩
  | .panicked m => ⟨[], .panicked m⟩
  | .ok key rf =>
      let rc := applyDefaults { c with RescanFrom := rf }
      match ParsePath rc.DerivationPath with
      | .error e => ⟨[], .err ("error parsing path: " ++ e)⟩
      | .ok parsed =>
          let printFn := selectPrintFn rc.Format
          let r0 := runKeys printFn key parsed rc.DerivationPath 0
            (List.range rc.RecoveryWindow)
          match r0.2 with
          | some e =>
              ⟨headerLine now :: selectComment rc.Format :: r0.1, .err e⟩
          | none =>
              let r1 := runKeys printFn key parsed rc.DerivationPath 1
                (List.range rc.RecoveryWindow)
              match r1.2 with
              | some e =>
                  ⟨headerLine now :: selectComment rc.Format ::
                    (r0.1 ++ r1.1), .err e⟩
              | none =>
                  ⟨headerLine now :: selectComment rc.Format ::
                    (r0.1 ++ r1.1 ++ [rescanLine rc.RescanFrom]), .ok⟩

/-- A private root-key fixture for concrete runs. -/
def privRoot : ExtendedKey := ⟨true, []⟩

/-- A public-only root-key fixture for concrete runs. -/
def pubRoot : ExtendedKey := ⟨false, []⟩

/-- A root-key parser fixture that accepts any string as `privRoot`. -/
def parsePriv : String → Except String ExtendedKey := fun _ => .ok privRoot

/-- A root-key parser fixture that accepts any string as `pubRoot`. -/
def parsePub : String → Except String ExtendedKey := fun _ => .ok pubRoot

/-- A console fixture for runs that never reach the console. -/
def noConsole : Except String (ExtendedKey × Int) := .error "console not used"

/-- A console fixture yielding a private key and birthday 1600000000. -/
def consoleFix : Except String (ExtendedKey × Int) := .ok (privRoot, 1600000000)

/-- The wrapped error a signing-key-exporting renderer returns on a key
holding only public material. -/
def pubKeyErr : String :=
  "could not derive private key: unable to create private keys from a public extended key"

theorem estimateFromGenesis_eq_floor (g t : Int) (h0 : g ≤ t)
    (hcap : t - g ≤ 9223372036) :
    (estimateFromGenesis g t : Int) = specFloorHeight g t := by
  have hd : 0 ≤ t - g := by omega
  unfold estimateFromGenesis specFloorHeight uint32OfInt durationClampSec
  have hclamp : max (-9223372036) (min 9223372036 (t - g)) = t - g := by omega
  rw [hclamp, Int.tdiv_eq_ediv hd (by decide), Int.fdiv_eq_ediv _ (by decide)]
  have hq : 0 ≤ (t - g) / 600 := Int.ediv_nonneg hd (by decide)
  have hub : (t - g) / 600 < 4294967296 := by
    have h1 := Int.ediv_le_ediv (by decide : (0 : Int) < 600) hcap
    have h2 : (9223372036 : Int) / 600 = 15372286 := by decide
    omega
  rw [Int.emod_eq_of_lt hq hub, Int.toNat_of_nonneg hq]

theorem estimateFromGenesis_mono (g t1 t2 : Int) (h0 : g ≤ t1) (h12 : t1 ≤ t2) :
    estimateFromGenesis g t1 ≤ estimateFromGenesis g t2 := by
  unfold estimateFromGenesis uint32OfInt durationClampSec
  have hc1 : (0 : Int) ≤ max (-9223372036) (min 9223372036 (t1 - g)) := by omega
  have hc12 : max (-9223372036) (min 9223372036 (t1 - g))
      ≤ max (-9223372036) (min 9223372036 (t2 - g)) := by omega
  have hc2cap : max (-9223372036) (min 9223372036 (t2 - g)) ≤ 9223372036 := by
    omega
  rw [Int.tdiv_eq_ediv hc1 (by decide), Int.tdiv_eq_ediv (by omega) (by decide)]
  have hqle := Int.ediv_le_ediv (by decide : (0 : Int) < 600) hc12
  have hq1 : 0 ≤ max (-9223372036) (min 9223372036 (t1 - g)) / 600 :=
    Int.ediv_nonneg hc1 (by decide)
  have hq2ub : max (-9223372036) (min 9223372036 (t2 - g)) / 600 < 4294967296 := by
    have h1 := Int.ediv_le_ediv (by decide : (0 : Int) < 600) hc2cap
    have h2 : (9223372036 : Int) / 600 = 15372286 := by decide
    omega
  rw [Int.emod_eq_of_lt hq1 (by omega), Int.emod_eq_of_lt (by omega) hq2ub]
  exact Int.toNat_le_toNat hqle

theorem deriveChildren_private (p : List Nat) :
    ∀ k : ExtendedKey, k.isPrivate = true →
      DeriveChildren k p = .ok (deriveKey k p) := by
  induction p with
  | nil => intro k hk; simp [DeriveChildren, deriveKey]
  | cons e rest ih =>
      intro k hk
      rw [DeriveChildren, if_neg (by simp [hk]), ih _ (by simp [hk])]
      simp [deriveKey]

theorem deriveChildren_nonHardened (p : List Nat) :
    ∀ k : ExtendedKey, (∀ e ∈ p, e < hardenedKeyStart) →
      DeriveChildren k p = .ok (deriveKey k p) := by
  induction p with
  | nil => intro k _; simp [DeriveChildren, deriveKey]
  | cons e rest ih =>
      intro k hp
      have he : e < hardenedKeyStart := hp e (by simp)
      rw [DeriveChildren, if_neg (by omega), ih _ fun x hx => hp x (by simp [hx])]
      simp [deriveKey]

theorem selectPrintFn_private (format : String) (k : ExtendedKey)
    (dp : String) (b i : Nat) (hk : k.isPrivate = true) :
    selectPrintFn format k dp b i = .ok (selectLine format k dp b i) := by
  by_cases h1 : format = "bitcoin-cli-watchonly"
  · simp [selectPrintFn, selectLine, h1, printBitcoinCliWatchOnly, ECPubKey]
  · by_cases h2 : format = "bitcoin-importwallet"
    · simp [selectPrintFn, selectLine, h1, h2, printBitcoinImportWallet,
        ECPrivKey, hk]
    · simp [selectPrintFn, selectLine, h1, h2, printBitcoinCli, ECPrivKey, hk]

theorem runKeys_private (format : String) (key : ExtendedKey)
    (parsed : List Nat) (dp : String) (b : Nat)
    (hk : key.isPrivate = true) (l : List Nat) :
    runKeys (selectPrintFn format) key parsed dp b l
      = (l.map fun i =>
          selectLine format (deriveKey key (parsed ++ [b, i])) dp b i,
        none) := by
  induction l with
  | nil => simp [runKeys]
  | cons i rest ih =>
      have hsel := selectPrintFn_private format
        (deriveKey key (parsed ++ [b, i])) dp b i (by simp [deriveKey, hk])
      simp [runKeys, deriveChildren_private _ _ hk, hsel, ih]

theorem defaultWindow_ne_zero (w : Nat) : defaultWindow w ≠ 0 := by
  unfold defaultWindow
  split <;> simp_all [defaultRecoveryWindow]

/-- C7: Default resolution is applied independently per field: a zero
`RecoveryWindow` becomes 2500, a zero `RescanFrom` becomes 500000, an empty
`DerivationPath` becomes `m/84'/0'/0'` (`defaultDerivationPath`); a
non-zero (resp. non-empty) value, and every other field, is unchanged. -/
theorem c7_defaults_per_field (c : genImportScriptCommand) :
    (applyDefaults c).RecoveryWindow
        = (if c.RecoveryWindow = 0 then 2500 else c.RecoveryWindow)
      ∧ (applyDefaults c).RescanFrom
        = (if c.RescanFrom = 0 then 500000 else c.RescanFrom)
      ∧ (applyDefaults c).DerivationPath
        = (if c.DerivationPath = "" then defaultDerivationPath
            else c.DerivationPath)
      ∧ (applyDefaults c).RootKey = c.RootKey
      ∧ (applyDefaults c).Format = c.Format :=
  ⟨rfl, rfl, rfl, rfl, rfl⟩

/-- C8: On the test/regression networks regtest and simnet,
`seedBirthdayToBlock` returns height 0 for every birthday timestamp. -/
theorem c8_test_networks_zero (t : Int) :
    seedBirthdayToBlock "regtest" t = .height 0
      ∧ seedBirthdayToBlock "simnet" t = .height 0 :=
  ⟨rfl, rfl⟩

/-- C2 counterexample: on the unknown network name `signet` the estimator
does not return an error to its caller — it panics (the Go `default:`
branch), and the panic propagates out of the whole `Execute` run: the
model's `Outcome.panicked` channel, which (unrecovered, as in this
program) terminates the process, in contrast to the `Outcome.err` channel
of a returned error.  This refutes "signals ... as a returned/propagated
error ... and the core does not itself terminate the process". -/
theorem c2_counterexample :
    seedBirthdayToBlock "signet" 0 = .panicked "unimplemented network signet"
      ∧ Execute ⟨"", "", "m/0", 1, 0⟩ "signet" parsePriv (.ok (privRoot, 0)) "T"
          = ⟨[], .panicked "unimplemented network signet"⟩
      ∧ (Execute ⟨"", "", "m/0", 1, 0⟩ "signet" parsePriv (.ok (privRoot, 0))
          "T").outcome ≠ .err "unimplemented network signet" :=
  ⟨rfl, rfl, fun h => nomatch h⟩

/-- C2 amended: for every network identifier other than mainnet, testnet3,
regtest and simnet, the estimator never silently defaults a height — it
panics with a human-readable cause naming the network, and the panic
propagates through a console-based `Execute` run (terminating the process)
rather than surfacing as a returned error. -/
theorem c2_unknown_network_panics (netName : String) (t : Int)
    (h1 : netName ≠ "mainnet") (h2 : netName ≠ "testnet3")
    (h3 : netName ≠ "regtest") (h4 : netName ≠ "simnet") :
    seedBirthdayToBlock netName t
        = .panicked ("unimplemented network " ++ netName)
      ∧ (∀ h : Nat, seedBirthdayToBlock netName t ≠ .height h)
      ∧ ∀ (f d now : String) (w rf : Nat)
          (pr : String → Except String ExtendedKey) (k : ExtendedKey)
          (bday : Int),
          Execute ⟨"", f, d, w, rf⟩ netName pr (.ok (k, bday)) now
            = ⟨[], .panicked ("unimplemented network " ++ netName)⟩ := by
  have hall : ∀ s : Int, seedBirthdayToBlock netName s
      = .panicked ("unimplemented network " ++ netName) := by
    intro s
    simp [seedBirthdayToBlock, h1, h2, h3, h4]
  refine ⟨hall t, fun h hcontra => by simp [hall t] at hcontra, ?_⟩
  intro f d now w rf pr k bday
  simp [Execute, resolveRootAndRescan, hall (bday - 172800)]

/-- C3 counterexample: at birthday one second before the mainnet genesis
timestamp, the code returns height 0 (float truncation towards zero into a
`uint32`), while the spec's formula floor((birthday − genesis)/600) gives
−1; the two disagree, so the claim quantified over every birthday
timestamp fails. -/
theorem c3_counterexample :
    seedBirthdayToBlock "mainnet" 1231006504 = .height 0
      ∧ specFloorHeight mainnetGenesis 1231006504 = -1
      ∧ (0 : Int) ≠ -1 :=
  ⟨rfl, by decide, by decide⟩

/-- C3 amended: for mainnet and testnet3, and every birthday from the
network's genesis timestamp up to genesis + 9223372036 s (the maximum
span representable in a Go `time.Duration`), `seedBirthdayToBlock` returns
exactly floor((birthday − genesisTimestamp)/600), a non-negative height. -/
theorem c3_floor_estimate (netName : String) (g t : Int)
    (hnet : (netName = "mainnet" ∧ g = mainnetGenesis)
      ∨ (netName = "testnet3" ∧ g = testnet3Genesis))
    (h0 : g ≤ t) (hcap : t - g ≤ 9223372036) :
    seedBirthdayToBlock netName t
        = .height (Int.toNat (specFloorHeight g t))
      ∧ (Int.toNat (specFloorHeight g t) : Int) = specFloorHeight g t
      ∧ 0 ≤ specFloorHeight g t := by
  have heq := estimateFromGenesis_eq_floor g t h0 hcap
  have hnn : 0 ≤ specFloorHeight g t := by
    rw [← heq]; exact Int.natCast_nonneg _
  have htn : (Int.toNat (specFloorHeight g t) : Int) = specFloorHeight g t :=
    Int.toNat_of_nonneg hnn
  have hval : estimateFromGenesis g t = Int.toNat (specFloorHeight g t) := by
    omega
  rcases hnet with ⟨hn, hgval⟩ | ⟨hn, hgval⟩ <;>
    · subst hn hgval
      refine ⟨?_, htn, hnn⟩
      simp [seedBirthdayToBlock, hval]

/-- C4 counterexample: on mainnet with t1 = genesis − 1200 ≤ t2 = genesis,
the heights are 4294967294 and 0 — not monotone.  (The float quotient −2
is out of `uint32` range; Go leaves that conversion
implementation-dependent and the model follows gc/amd64, where it yields
2^32 − 2.) -/
theorem c4_counterexample :
    (1231005305 : Int) ≤ 1231006505
      ∧ seedBirthdayToBlock "mainnet" 1231005305 = .height 4294967294
      ∧ seedBirthdayToBlock "mainnet" 1231006505 = .height 0
      ∧ ¬ (4294967294 ≤ 0) :=
  ⟨by decide, rfl, rfl, by decide⟩

/-- C4 amended: for each supported network and t1 ≤ t2, the estimated
heights are monotone provided t1 is not before the network's genesis
timestamp (no restriction for regtest/simnet, whose estimate is constant
0); before genesis the `uint32` conversion of a negative quotient breaks
monotonicity, as the counterexample shows. -/
theorem c4_monotone (netName : String) (t1 t2 : Int)
    (hnet : netName = "mainnet" ∨ netName = "testnet3"
      ∨ netName = "regtest" ∨ netName = "simnet")
    (h12 : t1 ≤ t2)
    (hgen : (netName = "mainnet" → mainnetGenesis ≤ t1)
      ∧ (netName = "testnet3" → testnet3Genesis ≤ t1)) :
    ∃ h1 h2 : Nat,
      seedBirthdayToBlock netName t1 = .height h1
        ∧ seedBirthdayToBlock netName t2 = .height h2
        ∧ h1 ≤ h2 := by
  rcases hnet with hn | hn | hn | hn <;> subst hn
  · exact ⟨_, _, rfl, rfl,
      estimateFromGenesis_mono _ t1 t2 (hgen.1 rfl) h12⟩
  · exact ⟨_, _, rfl, rfl,
      estimateFromGenesis_mono _ t1 t2 (hgen.2 rfl) h12⟩
  · exact ⟨0, 0, rfl, rfl, le_refl 0⟩
  · exact ⟨0, 0, rfl, rfl, le_refl 0⟩

/-- C1: With the root key resolved and every derive/represent/render step
succeeding (in the model: the root key holds private material, which makes
every step succeed), a run emits the two header lines, then exactly W key
lines for branch 0 with indices 0..W−1 ascending, then exactly W key lines
for branch 1 with indices 0..W−1 ascending — each key derived along the
parsed path prefix extended by exactly the two literal levels branch then
index, never hardened by the engine — and then exactly one final
`bitcoin-cli rescanblockchain <height>` directive, where W is the resolved
recovery window. -/
theorem c1_enumeration (c : genImportScriptCommand) (netName now : String)
    (pr : String → Except String ExtendedKey)
    (console : Except String (ExtendedKey × Int))
    (key : ExtendedKey) (rf : Nat) (parsed : List Nat)
    (hres : resolveRootAndRescan c.RootKey c.RescanFrom netName pr console
      = .ok key rf)
    (hpriv : key.isPrivate = true)
    (hparse : ParsePath (defaultPath c.DerivationPath) = .ok parsed) :
    Execute c netName pr console now =
      ⟨headerLine now :: selectComment c.Format ::
        (((List.range (defaultWindow c.RecoveryWindow)).map fun i =>
            selectLine c.Format (deriveKey key (parsed ++ [0, i]))
              (defaultPath c.DerivationPath) 0 i)
          ++ ((List.range (defaultWindow c.RecoveryWindow)).map fun i =>
            selectLine c.Format (deriveKey key (parsed ++ [1, i]))
              (defaultPath c.DerivationPath) 1 i)
          ++ [rescanLine (defaultRescan rf)]), .ok⟩
      ∧ (Execute c netName pr console now).lines.length
          = 2 * defaultWindow c.RecoveryWindow + 3 := by
  have hmain : Execute c netName pr console now =
      ⟨headerLine now :: selectComment c.Format ::
        (((List.range (defaultWindow c.RecoveryWindow)).map fun i =>
            selectLine c.Format (deriveKey key (parsed ++ [0, i]))
              (defaultPath c.DerivationPath) 0 i)
          ++ ((List.range (defaultWindow c.RecoveryWindow)).map fun i =>
            selectLine c.Format (deriveKey key (parsed ++ [1, i]))
              (defaultPath c.DerivationPath) 1 i)
          ++ [rescanLine (defaultRescan rf)]), .ok⟩ := by
    unfold Execute
    rw [hres]
    dsimp only [applyDefaults]
    rw [hparse]
    dsimp only
    rw [runKeys_private c.Format key parsed _ 0 hpriv,
      runKeys_private c.Format key parsed _ 1 hpriv]
  refine ⟨hmain, ?_⟩
  rw [hmain]
  simp [List.length_append, List.length_map, List.length_range]
  ring

/-- Witness for C1 at a concrete one-index window: path `m/0`, window 1. -/
theorem c1_enumeration_witness :
    Execute ⟨"rk", "", "m/0", 1, 7⟩ "mainnet" parsePriv noConsole "T" =
      ⟨headerLine "T" :: selectComment "" ::
        (((List.range (defaultWindow 1)).map fun i =>
            selectLine "" (deriveKey privRoot ([0] ++ [0, i]))
              (defaultPath "m/0") 0 i)
          ++ ((List.range (defaultWindow 1)).map fun i =>
            selectLine "" (deriveKey privRoot ([0] ++ [1, i]))
              (defaultPath "m/0") 1 i)
          ++ [rescanLine (defaultRescan 7)]), .ok⟩
      ∧ (Execute ⟨"rk", "", "m/0", 1, 7⟩ "mainnet" parsePriv noConsole "T").lines.length
          = 2 * defaultWindow 1 + 3 :=
  c1_enumeration ⟨"rk", "", "m/0", 1, 7⟩ "mainnet" "T" parsePriv noConsole
    privRoot 7 [0] rfl rfl rfl

/-- Witness for C2's amended theorem at the concrete network `signet`. -/
theorem c2_unknown_network_panics_witness :
    seedBirthdayToBlock "signet" 5
        = .panicked ("unimplemented network " ++ "signet")
      ∧ Execute ⟨"", "x", "m/0", 1, 9⟩ "signet" parsePriv
          (.ok (privRoot, 1600000000)) "T"
        = ⟨[], .panicked ("unimplemented network " ++ "signet")⟩ := by
  have h := c2_unknown_network_panics "signet" 5
    (by decide) (by decide) (by decide) (by decide)
  exact ⟨h.1, h.2.2 "x" "m/0" "T" 1 9 parsePriv privRoot 1600000000⟩

/-- Witness for C3's amended theorem: mainnet, 1200 s after genesis. -/
theorem c3_floor_estimate_witness :
    seedBirthdayToBlock "mainnet" (1231006505 + 1200)
        = .height (Int.toNat (specFloorHeight mainnetGenesis (1231006505 + 1200)))
      ∧ (Int.toNat (specFloorHeight mainnetGenesis (1231006505 + 1200)) : Int)
        = specFloorHeight mainnetGenesis (1231006505 + 1200)
      ∧ 0 ≤ specFloorHeight mainnetGenesis (1231006505 + 1200) :=
  c3_floor_estimate "mainnet" mainnetGenesis (1231006505 + 1200)
    (Or.inl ⟨rfl, rfl⟩) (by decide) (by decide)

/-- Witness for C4's amended theorem: mainnet, genesis and genesis + 600. -/
theorem c4_monotone_witness :
    ∃ h1 h2 : Nat,
      seedBirthdayToBlock "mainnet" 1231006505 = .height h1
        ∧ seedBirthdayToBlock "mainnet" (1231006505 + 600) = .height h2
        ∧ h1 ≤ h2 :=
  c4_monotone "mainnet" 1231006505 (1231006505 + 600) (Or.inl rfl)
    (by decide) ⟨fun _ => by decide, fun hc => nomatch hc⟩

theorem selectPrintFn_unknown (s : String)
    (h2 : s ≠ "bitcoin-cli-watchonly") (h3 : s ≠ "bitcoin-importwallet") :
    selectPrintFn s = printBitcoinCli := by
  simp [selectPrintFn, h2, h3]

theorem selectComment_unknown (s : String) (h3 : s ≠ "bitcoin-importwallet") :
    selectComment s = selectComment "bitcoin-cli" := by
  simp [selectComment, h3]

/-- C5: A format selector other than the three recognized values selects
the `bitcoin-cli` (direct-import) renderer through the `default:`
fallthrough, with no error: the entire run output is identical to the same
run with format `bitcoin-cli`. -/
theorem c5_unknown_format_as_cli (c : genImportScriptCommand)
    (netName now : String) (pr : String → Except String ExtendedKey)
    (console : Except String (ExtendedKey × Int)) (s : String)
    (_h1 : s ≠ "bitcoin-cli") (h2 : s ≠ "bitcoin-cli-watchonly")
    (h3 : s ≠ "bitcoin-importwallet") :
    Execute { c with Format := s } netName pr console now
      = Execute { c with Format := "bitcoin-cli" } netName pr console now := by
  have hp : selectPrintFn s = selectPrintFn "bitcoin-cli" := by
    rw [selectPrintFn_unknown s h2 h3]
    rfl
  have hc : selectComment s = selectComment "bitcoin-cli" :=
    selectComment_unknown s h3
  unfold Execute
  dsimp only [applyDefaults]
  rw [hp, hc]

/-- Witness for C5 at the concrete unknown selector `foo`. -/
theorem c5_unknown_format_as_cli_witness :
    Execute { (⟨"rk", "", "m/0", 1, 7⟩ : genImportScriptCommand) with
        Format := "foo" } "mainnet" parsePriv noConsole "T"
      = Execute { (⟨"rk", "", "m/0", 1, 7⟩ : genImportScriptCommand) with
        Format := "bitcoin-cli" } "mainnet" parsePriv noConsole "T" :=
  c5_unknown_format_as_cli ⟨"rk", "", "m/0", 1, 7⟩ "mainnet" "T" parsePriv
    noConsole "foo" (by decide) (by decide) (by decide)

/-- C6: A renderer that exports the signing key (`bitcoin-cli` direct
import, or `bitcoin-importwallet` bulk dump) fails on a key holding only
public material, and inside a run that failure at the first (branch,
index) pair — branch 0, index 0 here — aborts everything: the error is
surfaced as the run's outcome, the already-emitted header lines stand, and
no key line and no rescan line is emitted. -/
theorem c6_public_material_aborts :
    (∀ (k : ExtendedKey) (dp : String) (b i : Nat), k.isPrivate = false →
        printBitcoinCli k dp b i = .error pubKeyErr
          ∧ printBitcoinImportWallet k dp b i = .error pubKeyErr)
      ∧ ∀ (c : genImportScriptCommand) (netName now : String)
          (pr : String → Except String ExtendedKey)
          (console : Except String (ExtendedKey × Int))
          (key : ExtendedKey) (rf : Nat) (parsed : List Nat),
          resolveRootAndRescan c.RootKey c.RescanFrom netName pr console
            = .ok key rf →
          key.isPrivate = false →
          ParsePath (defaultPath c.DerivationPath) = .ok parsed →
          (∀ e ∈ parsed, e < hardenedKeyStart) →
          (c.Format = "bitcoin-cli" ∨ c.Format = "bitcoin-importwallet") →
          Execute c netName pr console now
            = ⟨[headerLine now, selectComment c.Format], .err pubKeyErr⟩ := by
  constructor
  · intro k dp b i hk
    constructor <;>
      simp [printBitcoinCli, printBitcoinImportWallet, ECPrivKey, hk,
        pubKeyErr]
  · intro c netName now pr console key rf parsed hres hk hparse hnh hfmt
    obtain ⟨m, hm⟩ :=
      Nat.exists_eq_succ_of_ne_zero (defaultWindow_ne_zero c.RecoveryWindow)
    have hder := deriveChildren_nonHardened (parsed ++ [0, 0]) key
      (fun e he => by
        rcases List.mem_append.mp he with h | h
        · exact hnh e h
        · simp at h
          simp [h, hardenedKeyStart])
    have hprint : selectPrintFn c.Format (deriveKey key (parsed ++ [0, 0]))
        (defaultPath c.DerivationPath) 0 0 = .error pubKeyErr := by
      rcases hfmt with hf | hf <;>
        simp [selectPrintFn, hf, printBitcoinCli, printBitcoinImportWallet,
          ECPrivKey, deriveKey, hk, pubKeyErr]
    unfold Execute
    rw [hres]
    dsimp only [applyDefaults]
    rw [hparse]
    dsimp only
    rw [hm, List.range_succ_eq_map, runKeys, hder]
    dsimp only
    rw [hprint]

/-- Witness for C6: a public-only root over the non-hardened path `m/0`. -/
theorem c6_public_material_aborts_witness :
    printBitcoinCli pubRoot "m/0" 0 0 = .error pubKeyErr
      ∧ Execute ⟨"rk", "bitcoin-cli", "m/0", 1, 7⟩ "mainnet" parsePub
          noConsole "T"
        = ⟨[headerLine "T", selectComment "bitcoin-cli"], .err pubKeyErr⟩ :=
  ⟨(c6_public_material_aborts.1 pubRoot "m/0" 0 0 rfl).1,
    c6_public_material_aborts.2 ⟨"rk", "bitcoin-cli", "m/0", 1, 7⟩ "mainnet"
      "T" parsePub noConsole pubRoot 7 [0] rfl rfl rfl
      (by intro e he; simp at he; simp [he, hardenedKeyStart]) (Or.inl rfl)⟩

theorem resolveRoot_empty_rescan (r r' : Nat) (netName : String)
    (pr : String → Except String ExtendedKey)
    (console : Except String (ExtendedKey × Int)) :
    resolveRootAndRescan "" r netName pr console
      = resolveRootAndRescan "" r' netName pr console := by
  simp [resolveRootAndRescan]

/-- C9: When the root key comes from the console (empty `RootKey` flag),
the run is completely independent of the supplied `RescanFrom` value — it
is overwritten with the estimate for (birthday − 48 h = 172800 s); a
supplied `RescanFrom` reaches the run exactly when the root key is given
directly as a string. -/
theorem c9_console_overrides_rescanfrom :
    (∀ (c : genImportScriptCommand) (netName now : String)
        (pr : String → Except String ExtendedKey)
        (console : Except String (ExtendedKey × Int)) (r : Nat),
        c.RootKey = "" →
        Execute { c with RescanFrom := r } netName pr console now
          = Execute c netName pr console now)
      ∧ (∀ (rf : Nat) (netName : String)
          (pr : String → Except String ExtendedKey) (k : ExtendedKey)
          (bday : Int) (h : Nat),
          seedBirthdayToBlock netName (bday - 172800) = .height h →
          resolveRootAndRescan "" rf netName pr (.ok (k, bday)) = .ok k h)
      ∧ ∀ (rk : String) (rf : Nat) (netName : String)
          (pr : String → Except String ExtendedKey)
          (console : Except String (ExtendedKey × Int)) (k : ExtendedKey),
          rk ≠ "" → pr rk = .ok k →
          resolveRootAndRescan rk rf netName pr console = .ok k rf := by
  refine ⟨?_, ?_, ?_⟩
  · intro c netName now pr console r hroot
    unfold Execute
    dsimp only
    rw [hroot, resolveRoot_empty_rescan r c.RescanFrom]
  · intro rf netName pr k bday h hest
    simp [resolveRootAndRescan, hest]
  · intro rk rf netName pr console k hrk hpr
    simp [resolveRootAndRescan, hrk, hpr]

/-- Witness for C9 at concrete inputs: a console run on regtest (estimate
0) ignores `RescanFrom` 7 vs 9, and a direct root key keeps its 7. -/
theorem c9_console_overrides_rescanfrom_witness :
    Execute { (⟨"", "", "m/0", 1, 9⟩ : genImportScriptCommand) with
        RescanFrom := 7 } "regtest" parsePriv consoleFix "T"
      = Execute ⟨"", "", "m/0", 1, 9⟩ "regtest" parsePriv consoleFix "T"
      ∧ resolveRootAndRescan "" 9 "regtest" parsePriv (.ok (privRoot, 1600000000))
        = .ok privRoot 0
      ∧ resolveRootAndRescan "rk" 7 "mainnet" parsePriv noConsole
        = .ok privRoot 7 :=
  ⟨c9_console_overrides_rescanfrom.1 ⟨"", "", "m/0", 1, 9⟩ "regtest" "T"
      parsePriv consoleFix 7 rfl,
    c9_console_overrides_rescanfrom.2.1 9 "regtest" parsePriv privRoot
      1600000000 0 rfl,
    c9_console_overrides_rescanfrom.2.2 "rk" 7 "mainnet" parsePriv noConsole
      privRoot (by decide) rfl⟩

/-- C10: On every successfully completing run, the final emitted line is
the rescan directive for the resolved height, the height is never 0, and
whenever the height entering the defaulting step is 0 the directive reads
`bitcoin-cli rescanblockchain 500000`. -/
theorem c10_rescan_height_defaulted (c : genImportScriptCommand)
    (netName now : String) (pr : String → Except String ExtendedKey)
    (console : Except String (ExtendedKey × Int)) (key : ExtendedKey)
    (rf : Nat)
    (hres : resolveRootAndRescan c.RootKey c.RescanFrom netName pr console
      = .ok key rf)
    (hok : (Execute c netName pr console now).outcome = .ok) :
    (Execute c netName pr console now).lines.getLast?
        = some (rescanLine (defaultRescan rf))
      ∧ defaultRescan rf ≠ 0
      ∧ (rf = 0 → defaultRescan rf = 500000) := by
  have h2 : defaultRescan rf ≠ 0 := by
    unfold defaultRescan
    split <;> simp_all [defaultRescanFrom]
  have h3 : rf = 0 → defaultRescan rf = 500000 := by
    intro h
    simp [defaultRescan, h, defaultRescanFrom]
  refine ⟨?_, h2, h3⟩
  unfold Execute at hok ⊢
  rw [hres] at hok ⊢
  dsimp only [applyDefaults] at hok ⊢
  cases hp : ParsePath (defaultPath c.DerivationPath) with
  | error e =>
      rw [hp] at hok
      simp at hok
  | ok parsed =>
      rw [hp] at hok
      dsimp only at hok ⊢
      cases h0 : (runKeys (selectPrintFn c.Format) key parsed
          (defaultPath c.DerivationPath) 0
          (List.range (defaultWindow c.RecoveryWindow))).2 with
      | some e =>
          rw [h0] at hok
          simp at hok
      | none =>
          rw [h0] at hok
          dsimp only at hok ⊢
          cases h1 : (runKeys (selectPrintFn c.Format) key parsed
              (defaultPath c.DerivationPath) 1
              (List.range (defaultWindow c.RecoveryWindow))).2 with
          | some e =>
              rw [h1] at hok
              simp at hok
          | none =>
              dsimp only
              have hlast := List.getLast?_concat
                (l := headerLine now :: selectComment c.Format ::
                  ((runKeys (selectPrintFn c.Format) key parsed
                    (defaultPath c.DerivationPath) 0
                    (List.range (defaultWindow c.RecoveryWindow))).1
                  ++ (runKeys (selectPrintFn c.Format) key parsed
                    (defaultPath c.DerivationPath) 1
                    (List.range (defaultWindow c.RecoveryWindow))).1))
                (a := rescanLine (defaultRescan rf))
              simpa using hlast

/-- Witness for C10 on a concrete successful run with `RescanFrom` 7. -/
theorem c10_rescan_height_defaulted_witness :
    (Execute ⟨"rk", "", "m/0", 1, 7⟩ "mainnet" parsePriv noConsole
        "T").lines.getLast?
        = some (rescanLine (defaultRescan 7))
      ∧ defaultRescan 7 ≠ 0
      ∧ (7 = 0 → defaultRescan 7 = 500000) :=
  c10_rescan_height_defaulted ⟨"rk", "", "m/0", 1, 7⟩ "mainnet" "T"
    parsePriv noConsole privRoot 7 rfl rfl

end Chantools
